import Mathlib

/-
Shallow embedding of the rtt-shell terminal engine:
  * the escape-sequence classifier `ehshell_escape_char_parse` and the line
    editor / record sink `terminal_display_record_process_data` from
    src/terminal_display_record.cpp;
  * the Ctrl-C watchdog from src/jlink_rtt.cpp (functions `timeout_thread`,
    the isolated-Ctrl-C detection in `rtt_thread`, and the receive path),
    modelled as a step relation over timestamped events.
Bytes are natural numbers reduced mod 256 (the C `char` argument); tokens are
the numeric values of `enum ehshell_escape_char`.  Display echo, the raw
escape text and the log are byte strings (each byte rendered as the Unicode
code point equal to its value).  The log is a list of records: the C code
performs exactly one `<<`-write followed by `std::flush` per line feed, so one
list element corresponds to one flushed record.  The wall clock
(`get_current_time_str`) is modelled by a broken-down-time argument for the
formatting, and by an explicit `now : String` parameter for the editor (the
clock held fixed during a comparison).
-/

/-- FSM states of the classifier, one per TERMINAL_ESCAPE_MATCH_* constant. -/
inductive MState where
  | mnone
  | mesc
  | mosc
  | mdcs
  | mpm
  | mapc
  | mss3
  | mcsi
  | mwaitSt
  deriving DecidableEq

/-- Classifier state: `matchState` is s_escape_char_match_state, `bufLen` is
the counter stored in s_escape_char_parse_buf[0], `buf` holds the bytes stored
at s_escape_char_parse_buf[1..bufLen] (written only in the CSI state), and
`bufStr` is s_escape_char_parse_buf_str, the raw text of the sequence. -/
structure EscState where
  matchState : MState
  bufLen : Nat
  buf : List Nat
  bufStr : String
  deriving DecidableEq

def ESCAPE_CHAR_NUL : Nat := 0x00

def ESCAPE_CHAR_CTRL_RESET : Nat := 0x100

def ESCAPE_CHAR_CTRL_HOME : Nat := 0x101

def ESCAPE_CHAR_CTRL_END : Nat := 0x102

def ESCAPE_CHAR_CTRL_LEFT : Nat := 0x103

def ESCAPE_CHAR_CTRL_RIGHT : Nat := 0x104

def ESCAPE_CHAR_CTRL_UP : Nat := 0x105

def ESCAPE_CHAR_CTRL_DOWN : Nat := 0x106

def ESCAPE_CHAR_CTRL_DELETE : Nat := 0x107

def ESCAPE_CHAR_CTRL_OTHER : Nat := 0x108

def is_csi_final (c : Nat) : Bool := 0x40 ≤ c && c ≤ 0x7E

def is_middle_byte (c : Nat) : Bool := 0x20 ≤ c && c ≤ 0x2F

def is_param_byte (c : Nat) : Bool :=
  (0x30 ≤ c && c ≤ 0x39) || c == 0x3B || c == 0x3F || c == 0x3E || c == 0x3C

/-- Ending of the C function body for the `break` paths: after the switch,
`if(state == NONE) return ESCAPE_CHAR_CTRL_OTHER; return ESCAPE_CHAR_NUL;`. -/
def escFinish (s : EscState) : Nat × EscState :=
  if s.matchState = MState.mnone then (ESCAPE_CHAR_CTRL_OTHER, s)
  else (ESCAPE_CHAR_NUL, s)

/-- The `reset:` label: set the state back to NONE and return CTRL_RESET. -/
def escReset (s : EscState) : Nat × EscState :=
  (ESCAPE_CHAR_CTRL_RESET, { s with matchState := MState.mnone })

/-- Decoding of a completed CSI sequence from the accumulation buffer (the
`if(s_escape_char_parse_buf[0] == 2 ...)` / `== 1` chains after the final
byte): `len` is buf[0] after the final byte was stored, `buf` the stored
bytes buf[1..len].  The `break` path for every other completed sequence falls
through to the post-switch check, which in the NONE state returns
ESCAPE_CHAR_CTRL_OTHER. -/
def csi_token (len : Nat) (buf : List Nat) : Nat :=
  if len = 2 ∧ buf.getD 1 0 = 0x7E then
    if buf.getD 0 0 = 0x31 then ESCAPE_CHAR_CTRL_HOME
    else if buf.getD 0 0 = 0x33 then ESCAPE_CHAR_CTRL_DELETE
    else if buf.getD 0 0 = 0x34 then ESCAPE_CHAR_CTRL_END
    else ESCAPE_CHAR_CTRL_OTHER
  else if len = 1 then
    if buf.getD 0 0 = 0x41 then ESCAPE_CHAR_CTRL_UP
    else if buf.getD 0 0 = 0x42 then ESCAPE_CHAR_CTRL_DOWN
    else if buf.getD 0 0 = 0x43 then ESCAPE_CHAR_CTRL_RIGHT
    else if buf.getD 0 0 = 0x44 then ESCAPE_CHAR_CTRL_LEFT
    else if buf.getD 0 0 = 0x46 then ESCAPE_CHAR_CTRL_END
    else if buf.getD 0 0 = 0x48 then ESCAPE_CHAR_CTRL_HOME
    else ESCAPE_CHAR_CTRL_OTHER
  else ESCAPE_CHAR_CTRL_OTHER

/-- One step of `ehshell_escape_char_parse` on one input byte; returns the
token (the C return value, as a Nat) and the updated classifier state. -/
def ehshell_escape_char_parse (s0 : EscState) (input : Nat) : Nat × EscState :=
  let b := input % 256
  let s :=
    if s0.matchState = MState.mnone then s0
    else { s0 with bufStr := s0.bufStr.push (Char.ofNat b) }
  match s.matchState with
  | MState.mnone =>
      if b = 0x1B then
        escFinish { s with matchState := MState.mesc, bufLen := 0, buf := [],
                           bufStr := String.mk [Char.ofNat 0x1B] }
      else (b, s)
  | MState.mesc =>
      if b = 0x5B then escFinish { s with matchState := MState.mcsi }
      else if b = 0x5D then escFinish { s with matchState := MState.mosc }
      else if b = 0x50 then escFinish { s with matchState := MState.mdcs }
      else if b = 0x5E then escFinish { s with matchState := MState.mpm }
      else if b = 0x5F then escFinish { s with matchState := MState.mapc }
      else if b = 0x4F then escFinish { s with matchState := MState.mss3 }
      else escFinish { s with matchState := MState.mnone }
  | MState.mosc | MState.mdcs | MState.mpm | MState.mapc =>
      if b = 0x07 then escFinish { s with matchState := MState.mnone }
      else if b = 0x1B then escFinish { s with matchState := MState.mwaitSt }
      else
        let s := { s with bufLen := s.bufLen + 1 }
        if 63 ≤ s.bufLen then escReset s else escFinish s
  | MState.mss3 =>
      if is_csi_final b then escFinish { s with matchState := MState.mnone }
      else escReset s
  | MState.mcsi =>
      if s.bufLen < 63 then
        let s := { s with buf := s.buf ++ [b], bufLen := s.bufLen + 1 }
        if is_csi_final b then
          let s := { s with matchState := MState.mnone }
          (csi_token s.bufLen s.buf, s)
        else
          if !is_middle_byte b && !is_param_byte b then escReset s
          else escFinish s
      else escReset s
  | MState.mwaitSt =>
      if b = 0x5C then escFinish { s with matchState := MState.mnone }
      else escReset s

/-- Classifier state right after `terminal_display_record_start`. -/
def initEscState : EscState :=
  { matchState := MState.mnone, bufLen := 0, buf := [], bufStr := "" }

/-- Feed a byte list through the classifier, collecting the token per byte. -/
def runParse (s : EscState) : List Nat → List Nat × EscState
  | [] => ([], s)
  | c :: rest =>
      let r := ehshell_escape_char_parse s c
      let rr := runParse r.2 rest
      (r.1 :: rr.1, rr.2)

/-- The C-locale `std::isprint`: the printable ASCII range. -/
def isprint (c : Nat) : Bool := 0x20 ≤ c && c ≤ 0x7E

/-- Broken-down local time as produced by localtime plus the millisecond
remainder; `get_current_time_str` formats one of these. -/
structure Tm where
  year : Nat
  month : Nat
  day : Nat
  hour : Nat
  min : Nat
  sec : Nat
  ms : Nat
  deriving DecidableEq

/-- Zero-padding to a field width, as `std::setfill('0') << std::setw w` and
the fixed-width `std::put_time` conversions produce. -/
def padZ (w : Nat) (n : Nat) : String :=
  String.mk (List.replicate (w - (toString n).length) '0') ++ toString n

/-- The timestamp string built by `get_current_time_str`:
put_time "[%Y-%m-%d %H:%M:%S" then '.' then the 3-digit milliseconds then "]". -/
def get_current_time_str (t : Tm) : String :=
  "[" ++ padZ 4 t.year ++ "-" ++ padZ 2 t.month ++ "-" ++ padZ 2 t.day ++ " " ++
  padZ 2 t.hour ++ ":" ++ padZ 2 t.min ++ ":" ++ padZ 2 t.sec ++ "." ++
  padZ 3 t.ms ++ "]"

/-- The prompt written after a timestamp: `<< ts << ">>>  "`. -/
def prompt (ts : String) : String := ts ++ ">>>  "

/-- Reading `(const char*)s_linebuf.data()` as a C string: the bytes up to the
first NUL, rendered as characters. -/
def cString (l : List Nat) : String :=
  String.mk ((l.takeWhile (fun c => c ≠ 0)).map Char.ofNat)

/-- Line editor / record sink state owned by the record thread:
line buffer (s_linebuf), cursor (s_linebuf_insert_pos), new-line flag
(s_is_new_line), the captured line-start timestamp
(s_linebuf_current_time_str), plus the observable outputs: the echoed display
text (std::cout) and the log records written to s_log_file (one element per
flushed record). -/
structure EdState where
  esc : EscState
  linebuf : List Nat
  insertPos : Nat
  isNewLine : Bool
  timeStr : String
  echo : String
  log : List String
  deriving DecidableEq

/-- Writing a printable byte into the line buffer at the cursor: overwrite in
place while `cursor < length`, otherwise insert (the C lines guarded by
`s_linebuf_insert_pos < s_linebuf.size()`). -/
def lbWrite (l : List Nat) (pos : Nat) (ch : Nat) : List Nat :=
  if pos < l.length then l.set pos ch else l.insertIdx pos ch

/-- Effect of one classified token `ch` on the editor state (the printable
branch and the switch of the loop body of
`terminal_display_record_process_data`).  The returned Bool tells whether this
token set `is_quit_sigint` (it was ESCAPE_CHAR_CTRL_C_SIGINT, 0x03).  `now` is
the string `get_current_time_str()` would return at this instant.  The
classifier state inside `s` has already been advanced, as the C code calls
`ehshell_escape_char_parse` first. -/
def editor_token_action (now : String) (s : EdState) (ch : Nat) : EdState × Bool :=
  if ch ≤ 0xFF && (isprint ch || 0x80 ≤ ch) then
    if s.isNewLine then
      ({ s with isNewLine := false, timeStr := now,
                echo := (s.echo ++ prompt now).push (Char.ofNat ch),
                linebuf := lbWrite s.linebuf s.insertPos ch,
                insertPos := s.insertPos + 1 }, false)
    else
      ({ s with echo := s.echo.push (Char.ofNat ch),
                linebuf := lbWrite s.linebuf s.insertPos ch,
                insertPos := s.insertPos + 1 }, false)
  else if ch = 0x03 then (s, true)
  else if ch = 0x08 then
    if 0 < s.insertPos then
      ({ s with linebuf := s.linebuf.eraseIdx (s.insertPos - 1),
                insertPos := s.insertPos - 1,
                echo := s.echo ++ "\x08 \x08" }, false)
    else (s, false)
  else if ch = 0x09 then ({ s with echo := s.echo ++ "\x09" }, false)
  else if ch = 0x0A then
    ({ s with echo := s.echo ++ "\x0A",
              log := s.log ++ [prompt s.timeStr ++ cString (s.linebuf ++ [0]) ++ "\x0A"],
              insertPos := 0, isNewLine := true, linebuf := [] }, false)
  else if ch = 0x0D then
    ({ s with echo := s.echo ++ "\x0D" ++ prompt s.timeStr, insertPos := 0 }, false)
  else if ch = 0x0E then
    ({ s with echo := s.echo ++ "\x0E\x0D", insertPos := 0, linebuf := [] }, false)
  else if ch = ESCAPE_CHAR_CTRL_LEFT then
    if 0 < s.insertPos then
      ({ s with insertPos := s.insertPos - 1, echo := s.echo ++ "\x1B[D" }, false)
    else (s, false)
  else if ch = ESCAPE_CHAR_CTRL_RIGHT then
    if s.insertPos < s.linebuf.length then
      ({ s with insertPos := s.insertPos + 1, echo := s.echo ++ "\x1B[C" }, false)
    else (s, false)
  else if ch = ESCAPE_CHAR_CTRL_OTHER then
    ({ s with echo := s.echo ++ s.esc.bufStr }, false)
  else (s, false)

/-- One iteration of the `for(auto c : data)` loop body: classify byte `c`
with `ehshell_escape_char_parse`, store the advanced classifier state, then
act on the token. -/
def editor_step (now : String) (s : EdState) (c : Nat) : EdState × Bool :=
  let pr := ehshell_escape_char_parse s.esc c
  editor_token_action now { s with esc := pr.2 } pr.1

/-- The per-batch loop: thread the editor state and the `is_quit_sigint` flag
through the bytes of one batch. -/
def process_bytes (now : String) (s : EdState) (qf : Bool) : List Nat → EdState × Bool
  | [] => (s, qf)
  | c :: rest =>
      let r := editor_step now s c
      process_bytes now r.1 (qf || r.2) rest

/-- `terminal_display_record_process_data` on one batch: run the loop with the
quit flag starting false; afterwards the quit-signal callback is invoked once
when the flag is set (a registered callback assumed), so the second component
is the number of callback invocations for the batch. -/
def terminal_display_record_process_data (now : String) (s : EdState)
    (data : List Nat) : EdState × Nat :=
  let r := process_bytes now s false data
  (r.1, if r.2 then 1 else 0)

/-- Process a sequence of batches in order, as the record thread does with the
chunks it dequeues (each call site passes one concatenated batch). -/
def process_batches (now : String) (s : EdState) : List (List Nat) → EdState
  | [] => s
  | b :: rest =>
      process_batches now (terminal_display_record_process_data now s b).1 rest

/-- Editor state right after `terminal_display_record_start`. -/
def initEdState : EdState :=
  { esc := initEscState, linebuf := [], insertPos := 0, isNewLine := true,
    timeStr := "", echo := "", log := [] }

/-- A mid-sequence editor state used to witness the amended C7: the
classifier just consumed a lone ESC. -/
def afterEscState : EdState :=
  { esc := { matchState := MState.mesc, bufLen := 0, buf := [], bufStr := "\x1B" },
    linebuf := [0x61], insertPos := 1, isNewLine := false, timeStr := "[T]",
    echo := "E", log := [] }

/-- A concrete mid-line editor state used to witness C8. -/
def midLineState : EdState :=
  { esc := initEscState, linebuf := [0x61, 0x62], insertPos := 2,
    isNewLine := false, timeStr := "[T]", echo := "E", log := [] }

/-- A concrete editor state holding the typed line `abc`, used to witness C5. -/
def lineAbcState : EdState :=
  { esc := initEscState, linebuf := [0x61, 0x62, 0x63], insertPos := 3,
    isNewLine := false, timeStr := get_current_time_str ⟨2026, 1, 7, 12, 0, 0, 123⟩,
    echo := "", log := [] }

/-- An editor state whose classifier sits inside a CSI sequence (after ESC [),
used to witness C10. -/
def midCsiEdState : EdState :=
  { initEdState with
      esc := { matchState := MState.mcsi, bufLen := 0, buf := [], bufStr := "\x1B[" } }

/-- Watchdog state shared between `rtt_thread` and `timeout_thread` in
src/jlink_rtt.cpp: `pending` is s_ctrl_c_pending, `timeoutActive` is
s_ctrl_c_timeout_active, `sentAt` is s_ctrl_c_sent_time (none for the zero
time_point), and `errCount` counts invocations of the registered error
callback (s_err_cb assumed registered). -/
structure WatchdogState where
  pending : Bool
  timeoutActive : Bool
  sentAt : Option Nat
  errCount : Nat
  deriving DecidableEq

/-- Events of the watchdog step relation, with times in milliseconds:
`tick now` is one pass of the `timeout_thread` polling loop body; `recv` is
`JLINK_RTTERMINAL_Read` returning a positive length in `rtt_thread`;
`detect now` is `is_isolated_ctrl_c` accepting a transmitted chunk. -/
inductive WdEvent where
  | tick (now : Nat)
  | recv
  | detect (now : Nat)
  deriving DecidableEq

def WdEvent.isDetect : WdEvent → Bool
  | WdEvent.detect _ => true
  | _ => false

def WdEvent.isRecv : WdEvent → Bool
  | WdEvent.recv => true
  | _ => false

/-- CTRL_C_TIMEOUT_MS. -/
def CTRL_C_TIMEOUT_MS : Nat := 200

/-- One step of the watchdog on one event, from the source: the body of the
`timeout_thread` loop (fire the error callback and clear the state when
pending, active, sent time set and at least 200 ms elapsed), the clearing on
received data in `rtt_thread`, and the arming on an isolated Ctrl-C. -/
def watchdog_step (s : WatchdogState) (e : WdEvent) : WatchdogState :=
  match e with
  | WdEvent.tick now =>
      if s.pending && s.timeoutActive then
        match s.sentAt with
        | some t =>
            if CTRL_C_TIMEOUT_MS ≤ now - t then
              { pending := false, timeoutActive := false, sentAt := none,
                errCount := s.errCount + 1 }
            else s
        | none => s
      else s
  | WdEvent.recv =>
      if s.pending then
        { s with pending := false, timeoutActive := false, sentAt := none }
      else s
  | WdEvent.detect now =>
      { s with pending := true, timeoutActive := true, sentAt := some now }

/-- Run the watchdog over a sequence of events. -/
def watchdog_run (s : WatchdogState) : List WdEvent → WatchdogState
  | [] => s
  | e :: es => watchdog_run (watchdog_step s e) es

/-- A tick that happens strictly before the timeout deadline of an episode
armed at `t0` (other events vacuously satisfy it). -/
def tickBeforeDeadline (t0 : Nat) : WdEvent → Bool
  | WdEvent.tick n => decide (n - t0 < CTRL_C_TIMEOUT_MS)
  | _ => true

/-- A tick at or past the timeout deadline of an episode armed at `t0`. -/
def tickPastDeadline (t0 : Nat) : WdEvent → Bool
  | WdEvent.tick n => decide (CTRL_C_TIMEOUT_MS ≤ n - t0)
  | _ => false

/-- The CSI decoding table exactly as the specification words it: with
parameter/intermediate bytes `ps` and final byte `f`, a bare `A/B/C/D/F/H`
maps to Up/Down/Right/Left/End/Home, `1~`/`3~`/`4~` map to
Home/Delete/End, and every other completed sequence maps to the generic
OTHER token. -/
def csiSpecToken (ps : List Nat) (f : Nat) : Nat :=
  match ps with
  | [] =>
      if f = 0x41 then ESCAPE_CHAR_CTRL_UP
      else if f = 0x42 then ESCAPE_CHAR_CTRL_DOWN
      else if f = 0x43 then ESCAPE_CHAR_CTRL_RIGHT
      else if f = 0x44 then ESCAPE_CHAR_CTRL_LEFT
      else if f = 0x46 then ESCAPE_CHAR_CTRL_END
      else if f = 0x48 then ESCAPE_CHAR_CTRL_HOME
      else ESCAPE_CHAR_CTRL_OTHER
  | [p] =>
      if f = 0x7E then
        if p = 0x31 then ESCAPE_CHAR_CTRL_HOME
        else if p = 0x33 then ESCAPE_CHAR_CTRL_DELETE
        else if p = 0x34 then ESCAPE_CHAR_CTRL_END
        else ESCAPE_CHAR_CTRL_OTHER
      else ESCAPE_CHAR_CTRL_OTHER
  | _ => ESCAPE_CHAR_CTRL_OTHER

theorem string_append_mk_nil (s : String) : s ++ String.mk [] = s := by
  cases s with
  | mk l =>
      show String.mk (l ++ []) = String.mk l
      rw [List.append_nil]

/-- A token action never changes the stored classifier state. -/
theorem editor_token_action_esc (now : String) (s : EdState) (ch : Nat) :
    (editor_token_action now s ch).1.esc = s.esc := by
  unfold editor_token_action
  by_cases h1 : (ch ≤ 0xFF && (isprint ch || 0x80 ≤ ch)) = true
  · rw [if_pos h1]
    by_cases h2 : s.isNewLine = true
    · rw [if_pos h2]
    · rw [if_neg h2]
  · rw [if_neg h1]
    repeat' split
    all_goals rfl

/-- The editor step always stores the classifier state returned by the parse. -/
theorem editor_step_esc (now : String) (s : EdState) (c : Nat) :
    (editor_step now s c).1.esc = (ehshell_escape_char_parse s.esc c).2 := by
  simp only [editor_step]
  rw [editor_token_action_esc]

/-- A token action reports a quit request exactly for the interrupt token. -/
theorem editor_token_action_snd (now : String) (s : EdState) (ch : Nat) :
    (editor_token_action now s ch).2 = decide (ch = 0x03) := by
  by_cases h3 : ch = 0x03
  · subst h3
    simp [editor_token_action, isprint]
  · unfold editor_token_action
    repeat' split
    all_goals simp_all

/-- The editor step reports a quit request exactly when the classified token is
the interrupt token 0x03. -/
theorem editor_step_snd (now : String) (s : EdState) (c : Nat) :
    (editor_step now s c).2 = decide ((ehshell_escape_char_parse s.esc c).1 = 0x03) := by
  simp only [editor_step]
  rw [editor_token_action_snd]

/-- The first component of the per-batch loop does not depend on the incoming
quit flag. -/
theorem process_bytes_fst_qf (now : String) :
    ∀ (data : List Nat) (s : EdState) (qf : Bool),
      (process_bytes now s qf data).1 = (process_bytes now s false data).1 := by
  intro data
  induction data with
  | nil => intro s qf; rfl
  | cons c rest ih =>
      intro s qf
      simp only [process_bytes]
      exact (ih _ _).trans (ih _ _).symm

theorem process_data_singleton (now : String) (s : EdState) (c : Nat) :
    (terminal_display_record_process_data now s [c]).1 = (editor_step now s c).1 := rfl

theorem process_bytes_as_batches (now : String) :
    ∀ (data : List Nat) (s : EdState),
      (process_bytes now s false data).1 =
        process_batches now s (data.map fun c => [c]) := by
  intro data
  induction data with
  | nil => intro s; rfl
  | cons c rest ih =>
      intro s
      simp only [process_bytes, List.map, process_batches]
      rw [process_bytes_fst_qf, ih, process_data_singleton]

/-- Claim C2: feeding a byte sequence as one batch or as the corresponding
sequence of single-byte batches, from the same initial state and with the
clock held fixed, yields the same final editor state: identical line buffer,
cursor, classifier state, log records and echoed display text. -/
theorem chunking_invariance (now : String) (s : EdState) (data : List Nat) :
    process_batches now s [data] = process_batches now s (data.map fun c => [c]) := by
  show (terminal_display_record_process_data now s data).1 = _
  simp only [terminal_display_record_process_data]
  exact process_bytes_as_batches now data s

/-- The quit flag accumulated over a batch is the initial flag or-ed with the
presence of the interrupt token among the batch's classified tokens. -/
theorem process_bytes_snd (now : String) :
    ∀ (data : List Nat) (s : EdState) (qf : Bool),
      (process_bytes now s qf data).2 =
        (qf || decide (0x03 ∈ (runParse s.esc data).1)) := by
  intro data
  induction data with
  | nil => intro s qf; simp [process_bytes, runParse]
  | cons c rest ih =>
      intro s qf
      simp only [process_bytes, runParse]
      rw [ih, editor_step_esc, editor_step_snd]
      simp [List.mem_cons, Bool.or_assoc, eq_comm]

/-- Claim C3: for every batch, the quit-signal callback is invoked exactly
once after the batch if at least one byte of the batch was classified as the
interrupt token 0x03 (also when several were), and zero times otherwise; the
count is a function of the whole token list, so processing never stops early. -/
theorem quit_signal_once (now : String) (s : EdState) (data : List Nat) :
    (terminal_display_record_process_data now s data).2 =
      if 0x03 ∈ (runParse s.esc data).1 then 1 else 0 := by
  simp only [terminal_display_record_process_data]
  rw [process_bytes_snd]
  by_cases h : 0x03 ∈ (runParse s.esc data).1 <;> simp [h]

/-- Writing a printable byte at a cursor within bounds grows the buffer by at
most one and keeps the advanced cursor within bounds. -/
theorem lbWrite_length (l : List Nat) (pos : Nat) (ch : Nat) (h : pos ≤ l.length) :
    pos + 1 ≤ (lbWrite l pos ch).length := by
  unfold lbWrite
  by_cases hlt : pos < l.length
  · rw [if_pos hlt, List.length_set]
    omega
  · rw [if_neg hlt]
    have hq : pos = l.length := by omega
    rw [List.length_insertIdx _ _ h]
    omega

/-- Each token action preserves the cursor invariant `cursor ≤ length`. -/
theorem editor_token_action_inv (now : String) (s : EdState) (ch : Nat)
    (h : s.insertPos ≤ s.linebuf.length) :
    (editor_token_action now s ch).1.insertPos ≤
      (editor_token_action now s ch).1.linebuf.length := by
  unfold editor_token_action
  by_cases h1 : (ch ≤ 0xFF && (isprint ch || 0x80 ≤ ch)) = true
  · rw [if_pos h1]
    by_cases h2 : s.isNewLine = true
    · rw [if_pos h2]
      exact lbWrite_length _ _ _ h
    · rw [if_neg h2]
      exact lbWrite_length _ _ _ h
  · rw [if_neg h1]
    repeat' split
    all_goals simp_all [List.length_eraseIdx]
    all_goals first
      | omega
      | (split <;> omega)

/-- Claim C9: the cursor invariant `0 ≤ cursor ≤ length(line buffer)` holds in
the start state and is preserved by the processing of every byte of every
batch (cursor is a Nat, so the lower bound is inherent). -/
theorem cursor_invariant :
    initEdState.insertPos ≤ initEdState.linebuf.length ∧
    ∀ (now : String) (data : List Nat) (s : EdState) (qf : Bool),
      s.insertPos ≤ s.linebuf.length →
      (process_bytes now s qf data).1.insertPos ≤
        (process_bytes now s qf data).1.linebuf.length := by
  constructor
  · exact Nat.le_refl 0
  · intro now data
    induction data with
    | nil => intro s qf h; exact h
    | cons c rest ih =>
        intro s qf h
        simp only [process_bytes]
        exact ih _ _ (editor_token_action_inv now _ _ h)

/-- Witness for C9 at a concrete batch: printable, backspace, CSI left-arrow
and line feed starting from the start state. -/
theorem cursor_invariant_witness :
    (process_bytes "[T]" initEdState false
        [0x61, 0x62, 0x1B, 0x5B, 0x44, 0x08, 0x0A]).1.insertPos ≤
      (process_bytes "[T]" initEdState false
        [0x61, 0x62, 0x1B, 0x5B, 0x44, 0x08, 0x0A]).1.linebuf.length :=
  cursor_invariant.2 "[T]" [0x61, 0x62, 0x1B, 0x5B, 0x44, 0x08, 0x0A]
    initEdState false (by decide)

/-- Claim C6 evidence: the byte 0x7F is declared in the source enum as
ESCAPE_CHAR_CTRL_BACKSPACE_1, "delete the previous character", like 0x08, but
the processing switch has no case for it: after typing `a` (cursor 1), a 0x7F
leaves the buffer, cursor and echo unchanged, while a 0x08 deletes the
character as documented. -/
theorem backspace_7f_dropped :
    ((terminal_display_record_process_data "[T]" initEdState [0x61, 0x7F]).1.linebuf
        = [0x61] ∧
     (terminal_display_record_process_data "[T]" initEdState [0x61, 0x7F]).1.insertPos
        = 1 ∧
     (terminal_display_record_process_data "[T]" initEdState [0x61, 0x7F]).1.echo
        = "[T]>>>  a") ∧
    ((terminal_display_record_process_data "[T]" initEdState [0x61, 0x08]).1.linebuf
        = [] ∧
     (terminal_display_record_process_data "[T]" initEdState [0x61, 0x08]).1.insertPos
        = 0 ∧
     (terminal_display_record_process_data "[T]" initEdState [0x61, 0x08]).1.echo
        = "[T]>>>  a\x08 \x08") := by
  exact ⟨⟨by decide, by decide, by decide⟩, ⟨by decide, by decide, by decide⟩⟩

/-- Claim C7 counterexample: after ESC, the unrecognized byte `x` does NOT
vanish silently: the classifier emits the generic OTHER token (0x108) for it,
and the editor therefore echoes the two raw bytes ESC `x`; the claim's "emits
no token... neither echoes those two bytes" is false at this input. -/
theorem esc_unknown_counterexample :
    (runParse initEscState [0x1B, 0x78]).1 = [0x00, 0x108] ∧
    (terminal_display_record_process_data "" initEdState [0x1B, 0x78]).1.echo
      = "\x1Bx" ∧
    (terminal_display_record_process_data "" initEdState [0x1B, 0x78]).1.esc.matchState
      = MState.mnone := by
  exact ⟨by decide, by decide, by decide⟩

/-- Claim C7 as amended: in the ESC state, any byte other than
`[ ] P ^ _ O` returns the classifier to NONE while emitting the generic
OTHER token carrying the raw two-byte text, so the line editor echoes the two
bytes verbatim and leaves the line buffer and cursor unchanged. -/
theorem esc_unknown_emits_other (now : String) (s : EdState) (b : Nat)
    (hs : s.esc.matchState = MState.mesc) (hb : b < 256)
    (h1 : b ≠ 0x5B) (h2 : b ≠ 0x5D) (h3 : b ≠ 0x50) (h4 : b ≠ 0x5E)
    (h5 : b ≠ 0x5F) (h6 : b ≠ 0x4F) :
    (ehshell_escape_char_parse s.esc b).1 = ESCAPE_CHAR_CTRL_OTHER ∧
    (editor_step now s b).1.esc.matchState = MState.mnone ∧
    (editor_step now s b).1.linebuf = s.linebuf ∧
    (editor_step now s b).1.insertPos = s.insertPos ∧
    (editor_step now s b).1.echo = s.echo ++ (s.esc.bufStr.push (Char.ofNat b)) := by
  obtain ⟨⟨ms, bl, bf, bs⟩, lb, ip, nl, ts, ec, lg⟩ := s
  simp only [EdState.mk.injEq] at hs ⊢
  subst hs
  have hmod : b % 256 = b := Nat.mod_eq_of_lt hb
  have hp : ehshell_escape_char_parse ⟨MState.mesc, bl, bf, bs⟩ b =
      (ESCAPE_CHAR_CTRL_OTHER,
       ⟨MState.mnone, bl, bf, bs.push (Char.ofNat b)⟩) := by
    simp [ehshell_escape_char_parse, escFinish, hmod, h1, h2, h3, h4, h5, h6]
  refine ⟨by rw [hp], ?_, ?_, ?_, ?_⟩ <;>
    simp [editor_step, hp, editor_token_action, isprint,
          ESCAPE_CHAR_CTRL_LEFT, ESCAPE_CHAR_CTRL_RIGHT, ESCAPE_CHAR_CTRL_OTHER]

/-- Witness for the amended C7 at byte 0x78 after a lone ESC. -/
theorem esc_unknown_emits_other_witness :
    (ehshell_escape_char_parse afterEscState.esc 0x78).1 = ESCAPE_CHAR_CTRL_OTHER ∧
    (editor_step "" afterEscState 0x78).1.esc.matchState = MState.mnone ∧
    (editor_step "" afterEscState 0x78).1.linebuf = afterEscState.linebuf ∧
    (editor_step "" afterEscState 0x78).1.insertPos = afterEscState.insertPos ∧
    (editor_step "" afterEscState 0x78).1.echo =
      afterEscState.echo ++ (afterEscState.esc.bufStr.push (Char.ofNat 0x78)) :=
  esc_unknown_emits_other "" afterEscState 0x78 rfl (by decide) (by decide)
    (by decide) (by decide) (by decide) (by decide) (by decide)

/-- Claim C8: a carriage-return token resets the cursor to 0 and echoes CR
followed by the current line's timestamp prompt, leaving the line buffer, the
new-line flag and the stored timestamp unchanged. -/
theorem carriage_return_effect (now : String) (s : EdState)
    (h : s.esc.matchState = MState.mnone) :
    (editor_step now s 0x0D).1.insertPos = 0 ∧
    (editor_step now s 0x0D).1.linebuf = s.linebuf ∧
    (editor_step now s 0x0D).1.isNewLine = s.isNewLine ∧
    (editor_step now s 0x0D).1.timeStr = s.timeStr ∧
    (editor_step now s 0x0D).1.echo = s.echo ++ "\x0D" ++ prompt s.timeStr := by
  obtain ⟨⟨ms, bl, bf, bs⟩, lb, ip, nl, ts, ec, lg⟩ := s
  simp only at h
  subst h
  refine ⟨?_, ?_, ?_, ?_, ?_⟩ <;>
    simp [editor_step, ehshell_escape_char_parse, editor_token_action, isprint,
          ESCAPE_CHAR_CTRL_LEFT, ESCAPE_CHAR_CTRL_RIGHT, ESCAPE_CHAR_CTRL_OTHER,
          prompt, String.append_assoc]

/-- Witness for C8 on a concrete mid-line state. -/
theorem carriage_return_effect_witness :
    (editor_step "N" midLineState 0x0D).1.insertPos = 0 ∧
    (editor_step "N" midLineState 0x0D).1.linebuf = midLineState.linebuf ∧
    (editor_step "N" midLineState 0x0D).1.isNewLine = midLineState.isNewLine ∧
    (editor_step "N" midLineState 0x0D).1.timeStr = midLineState.timeStr ∧
    (editor_step "N" midLineState 0x0D).1.echo =
      midLineState.echo ++ "\x0D" ++ prompt midLineState.timeStr :=
  carriage_return_effect "N" midLineState rfl

/-- A NUL-free byte list followed by the pushed sentinel reads back whole as a
C string. -/
theorem cString_no_nul (l : List Nat) (h : ∀ c ∈ l, c ≠ 0) :
    cString (l ++ [0]) = String.mk (l.map Char.ofNat) := by
  unfold cString
  have ht : (l ++ [0]).takeWhile (fun c => decide (c ≠ 0)) = l := by
    induction l with
    | nil => simp [List.takeWhile]
    | cons a t ih =>
        have ha : a ≠ 0 := h a (by simp)
        have hd : decide (a ≠ 0) = true := by simp [ha]
        simp only [List.cons_append, List.takeWhile, hd]
        exact congrArg (a :: ·) (ih (fun c hc => h c (by simp [hc])))
  rw [ht]

/-- Claim C5: a line-feed token appends exactly one record to the log — the
line-start timestamp (of the source's bracketed millisecond form,
`get_current_time_str`), the `>>>` marker with its two trailing spaces, the
line's content and a trailing newline — and the record is flushed (each list
element of `log` is one flushed write); afterwards the cursor is 0, the line
buffer is empty and the new-line flag is set. -/
theorem line_feed_flush (now : String) (tm : Tm) (s : EdState)
    (h1 : s.esc.matchState = MState.mnone)
    (h2 : s.timeStr = get_current_time_str tm)
    (h3 : ∀ c ∈ s.linebuf, c ≠ 0) :
    (editor_step now s 0x0A).1.log =
      s.log ++ [get_current_time_str tm ++ ">>>  " ++
                String.mk (s.linebuf.map Char.ofNat) ++ "\x0A"] ∧
    (editor_step now s 0x0A).1.insertPos = 0 ∧
    (editor_step now s 0x0A).1.linebuf = [] ∧
    (editor_step now s 0x0A).1.isNewLine = true := by
  obtain ⟨⟨ms, bl, bf, bs⟩, lb, ip, nl, ts, ec, lg⟩ := s
  simp only at h1 h2 h3
  subst h1
  subst h2
  refine ⟨?_, ?_, ?_, ?_⟩ <;>
    simp [editor_step, ehshell_escape_char_parse, editor_token_action, isprint,
          prompt, cString_no_nul _ h3]

/-- Witness for C5: flushing the line `abc`. -/
theorem line_feed_flush_witness :
    (editor_step "" lineAbcState 0x0A).1.log =
      lineAbcState.log ++ [get_current_time_str ⟨2026, 1, 7, 12, 0, 0, 123⟩ ++
        ">>>  " ++ String.mk (lineAbcState.linebuf.map Char.ofNat) ++ "\x0A"] ∧
    (editor_step "" lineAbcState 0x0A).1.insertPos = 0 ∧
    (editor_step "" lineAbcState 0x0A).1.linebuf = [] ∧
    (editor_step "" lineAbcState 0x0A).1.isNewLine = true :=
  line_feed_flush "" ⟨2026, 1, 7, 12, 0, 0, 123⟩ lineAbcState rfl rfl (by decide)

/-- Claim C10: a byte (in particular 0x03) consumed while the classifier is
inside an escape sequence is never classified as the interrupt token, so it
never sets the quit flag; a 0x03 consumed in the NONE state is. -/
theorem interrupt_requires_none_state :
    (∀ (s : EscState) (b : Nat), s.matchState ≠ MState.mnone →
        ¬ (ehshell_escape_char_parse s b).1 = 0x03) ∧
    (∀ (now : String) (s : EdState) (b : Nat), s.esc.matchState ≠ MState.mnone →
        (editor_step now s b).2 = false) ∧
    (∀ (s : EscState), s.matchState = MState.mnone →
        (ehshell_escape_char_parse s 0x03).1 = 0x03) := by
  have hfin : ∀ (x : EscState), ¬ (escFinish x).1 = 0x03 := by
    intro x
    unfold escFinish
    split <;> intro hc <;>
      simp [ESCAPE_CHAR_NUL, ESCAPE_CHAR_CTRL_OTHER] at hc
  have hres : ∀ (x : EscState), ¬ (escReset x).1 = 0x03 := by
    intro x hc
    simp [escReset, ESCAPE_CHAR_CTRL_RESET] at hc
  have hcsi : ∀ (len : Nat) (buf : List Nat), ¬ csi_token len buf = 0x03 := by
    intro len buf
    unfold csi_token
    repeat' split
    all_goals decide
  have p1 : ∀ (s : EscState) (b : Nat), s.matchState ≠ MState.mnone →
      ¬ (ehshell_escape_char_parse s b).1 = 0x03 := by
    intro s b h
    obtain ⟨ms, bl, bf, bs⟩ := s
    simp only at h
    cases ms
    case mnone => exact absurd rfl h
    all_goals
      unfold ehshell_escape_char_parse
      simp only [reduceCtorEq, reduceIte]
      repeat' split
    all_goals first
      | exact hfin _
      | exact hres _
      | exact hcsi _ _
  refine ⟨p1, ?_, ?_⟩
  · intro now s b h
    rw [editor_step_snd]
    exact decide_eq_false (p1 s.esc b h)
  · intro s h
    obtain ⟨ms, bl, bf, bs⟩ := s
    simp only at h
    subst h
    rfl

/-- Witness for C10: 0x03 inside ESC [ is not the interrupt token and does not
raise the quit flag; 0x03 in the NONE state is the interrupt token. -/
theorem interrupt_requires_none_state_witness :
    (¬ (ehshell_escape_char_parse midCsiEdState.esc 0x03).1 = 0x03) ∧
    ((editor_step "" midCsiEdState 0x03).2 = false) ∧
    ((ehshell_escape_char_parse initEscState 0x03).1 = 0x03) :=
  ⟨interrupt_requires_none_state.1 midCsiEdState.esc 0x03 (by decide),
   interrupt_requires_none_state.2.1 "" midCsiEdState 0x03 (by decide),
   interrupt_requires_none_state.2.2 initEscState rfl⟩

/-- Once cleared, the watchdog is inert while no new detection occurs. -/
theorem watchdog_run_cleared :
    ∀ (es : List WdEvent) (s : WatchdogState), s.pending = false →
      es.all (fun e => !e.isDetect) = true → watchdog_run s es = s := by
  intro es
  induction es with
  | nil => intro s _ _; rfl
  | cons e rest ih =>
      intro s hp hall
      simp only [List.all_cons, Bool.and_eq_true] at hall
      have hstep : watchdog_step s e = s := by
        cases e with
        | tick n => simp [watchdog_step, hp]
        | recv => simp [watchdog_step, hp]
        | detect n => simp [WdEvent.isDetect] at hall
      simp only [watchdog_run, hstep]
      exact ih s hp hall.2

/-- Claim C4: within one episode (no new detection): once `pending` is armed
at time `t0`, (a) if data is received while every earlier watchdog tick ran
before the 200 ms deadline, the episode ends with `pending` cleared and the
error callback never fired; (b) if no data is received and some tick runs at
or past the 200 ms deadline, the error callback fires exactly once and
`pending` is cleared afterwards. -/
theorem watchdog_episode (s0 : WatchdogState) (t0 : Nat)
    (hp : s0.pending = true) (ha : s0.timeoutActive = true)
    (hs : s0.sentAt = some t0) :
    (∀ es1 es2 : List WdEvent,
        (es1 ++ WdEvent.recv :: es2).all (fun e => !e.isDetect) = true →
        es1.all (tickBeforeDeadline t0) = true →
        (watchdog_run s0 (es1 ++ WdEvent.recv :: es2)).errCount = s0.errCount ∧
        (watchdog_run s0 (es1 ++ WdEvent.recv :: es2)).pending = false) ∧
    (∀ es : List WdEvent,
        es.all (fun e => !e.isDetect && !e.isRecv) = true →
        es.any (tickPastDeadline t0) = true →
        (watchdog_run s0 es).errCount = s0.errCount + 1 ∧
        (watchdog_run s0 es).pending = false) := by
  constructor
  · intro es1
    induction es1 with
    | nil =>
        intro es2 hall _
        simp only [List.nil_append, List.all_cons, Bool.and_eq_true] at hall
        simp only [List.nil_append, watchdog_run]
        have hstep : watchdog_step s0 WdEvent.recv =
            { s0 with pending := false, timeoutActive := false, sentAt := none } := by
          simp [watchdog_step, hp]
        rw [hstep, watchdog_run_cleared es2 _ rfl hall.2]
        exact ⟨rfl, rfl⟩
    | cons e rest ih =>
        intro es2 hall hbefore
        simp only [List.cons_append, List.all_cons, Bool.and_eq_true] at hall hbefore
        cases e with
        | tick n =>
            have hn : n - t0 < CTRL_C_TIMEOUT_MS := by
              have := hbefore.1
              simpa [tickBeforeDeadline] using this
            have hstep : watchdog_step s0 (WdEvent.tick n) = s0 := by
              simp [watchdog_step, hp, ha, hs, Nat.not_le.mpr hn]
            simp only [watchdog_run, hstep]
            exact ih es2 hall.2 hbefore.2
        | recv =>
            have hstep : watchdog_step s0 WdEvent.recv =
                { s0 with pending := false, timeoutActive := false, sentAt := none } := by
              simp [watchdog_step, hp]
            simp only [watchdog_run, hstep, List.append_eq]
            rw [watchdog_run_cleared _ _ rfl hall.2]
            exact ⟨rfl, rfl⟩
        | detect n => simp [WdEvent.isDetect] at hall
  · intro es
    induction es with
    | nil => intro _ hany; simp at hany
    | cons e rest ih =>
        intro hall hany
        simp only [List.all_cons, Bool.and_eq_true] at hall
        cases e with
        | tick n =>
            by_cases hlate : CTRL_C_TIMEOUT_MS ≤ n - t0
            · have hstep : watchdog_step s0 (WdEvent.tick n) =
                  { pending := false, timeoutActive := false, sentAt := none,
                    errCount := s0.errCount + 1 } := by
                simp [watchdog_step, hp, ha, hs, hlate]
              have hrest : rest.all (fun e => !e.isDetect) = true := by
                have h2 := hall.2
                simp only [List.all_eq_true, Bool.and_eq_true] at h2 ⊢
                intro x hx
                exact (h2 x hx).1
              simp only [watchdog_run, hstep]
              rw [watchdog_run_cleared rest _ rfl hrest]
              exact ⟨rfl, rfl⟩
            · have hstep : watchdog_step s0 (WdEvent.tick n) = s0 := by
                simp [watchdog_step, hp, ha, hs, hlate]
              simp only [watchdog_run, hstep]
              refine ih hall.2 ?_
              simp only [List.any_cons, Bool.or_eq_true] at hany
              rcases hany with h | h
              · exact absurd h (by simp [tickPastDeadline, hlate])
              · exact h
        | recv => simp [WdEvent.isRecv] at hall
        | detect n => simp [WdEvent.isDetect] at hall

/-- Witness for C4: armed at time 0 with 5 prior callback firings; a receive
at 150 ms (between ticks at 100 and 300 ms) ends the episode silently, while
three silent ticks at 100, 250 and 300 ms fire the callback exactly once. -/
theorem watchdog_episode_witness :
    ((watchdog_run ⟨true, true, some 0, 5⟩
        ([WdEvent.tick 100] ++ WdEvent.recv :: [WdEvent.tick 300])).errCount = 5 ∧
     (watchdog_run ⟨true, true, some 0, 5⟩
        ([WdEvent.tick 100] ++ WdEvent.recv :: [WdEvent.tick 300])).pending = false) ∧
    ((watchdog_run ⟨true, true, some 0, 5⟩
        [WdEvent.tick 100, WdEvent.tick 250, WdEvent.tick 300]).errCount = 5 + 1 ∧
     (watchdog_run ⟨true, true, some 0, 5⟩
        [WdEvent.tick 100, WdEvent.tick 250, WdEvent.tick 300]).pending = false) :=
  ⟨(watchdog_episode ⟨true, true, some 0, 5⟩ 0 rfl rfl rfl).1
      [WdEvent.tick 100] [WdEvent.tick 300] (by decide) (by decide),
   (watchdog_episode ⟨true, true, some 0, 5⟩ 0 rfl rfl rfl).2
      [WdEvent.tick 100, WdEvent.tick 250, WdEvent.tick 300] (by decide) (by decide)⟩

/-
CSI decoding (claim C1).
-/

theorem parse_csi_param (s : EscState) (c : Nat) (hs : s.matchState = MState.mcsi)
    (hlen : s.bufLen < 63) (hc : (is_middle_byte c || is_param_byte c) = true) :
    ehshell_escape_char_parse s c =
      (ESCAPE_CHAR_NUL,
       { s with buf := s.buf ++ [c], bufLen := s.bufLen + 1,
                bufStr := s.bufStr.push (Char.ofNat c) }) := by
  have hc64 : c < 0x40 := by
    simp [is_middle_byte, is_param_byte] at hc
    omega
  have hmod : c % 256 = c := Nat.mod_eq_of_lt (by omega)
  have hnf : is_csi_final c = false := by
    simp [is_csi_final]
    omega
  have hmp : (!is_middle_byte c && !is_param_byte c) = false := by
    rcases Bool.or_eq_true_iff.mp hc with h | h <;> simp [h]
  obtain ⟨ms, bl, bf, bs⟩ := s
  simp only at hs hlen
  subst hs
  unfold ehshell_escape_char_parse
  simp only [reduceCtorEq, reduceIte, hmod, hnf, hmp, Bool.false_eq_true, if_false,
    if_pos hlen]
  simp [escFinish]

theorem parse_csi_final (s : EscState) (f : Nat) (hs : s.matchState = MState.mcsi)
    (hlen : s.bufLen < 63) (hf : is_csi_final f = true) :
    ehshell_escape_char_parse s f =
      (csi_token (s.bufLen + 1) (s.buf ++ [f]),
       { s with matchState := MState.mnone, buf := s.buf ++ [f],
                bufLen := s.bufLen + 1, bufStr := s.bufStr.push (Char.ofNat f) }) := by
  have hmod : f % 256 = f := by
    simp [is_csi_final] at hf
    exact Nat.mod_eq_of_lt (by omega)
  obtain ⟨ms, bl, bf, bs⟩ := s
  simp only at hs hlen
  subst hs
  unfold ehshell_escape_char_parse
  simp only [reduceCtorEq, reduceIte, hmod, hf, if_pos hlen, if_true]

theorem push_append_mk (s : String) (c : Char) (cs : List Char) :
    (s.push c) ++ String.mk cs = s ++ String.mk (c :: cs) := by
  cases s with
  | mk l =>
      show String.mk ((l ++ [c]) ++ cs) = String.mk (l ++ (c :: cs))
      rw [List.append_assoc]
      rfl

theorem runParse_csi_accum :
    ∀ (ps : List Nat) (s : EscState), s.matchState = MState.mcsi →
      s.bufLen + ps.length ≤ 63 →
      (∀ c ∈ ps, (is_middle_byte c || is_param_byte c) = true) →
      runParse s ps =
        (List.replicate ps.length ESCAPE_CHAR_NUL,
         { s with buf := s.buf ++ ps, bufLen := s.bufLen + ps.length,
                  bufStr := s.bufStr ++ String.mk (ps.map Char.ofNat) }) := by
  intro ps
  induction ps with
  | nil =>
      intro s hs hlen hall
      obtain ⟨ms, bl, bf, bs⟩ := s
      cases bs with
      | mk l => simp [runParse, List.replicate]
  | cons c rest ih =>
      intro s hs hlen hall
      obtain ⟨ms, bl, bf, bs⟩ := s
      simp only at hs
      simp only [List.length_cons] at hlen
      subst hs
      have hc := hall c (by simp)
      have hstep := parse_csi_param ⟨MState.mcsi, bl, bf, bs⟩ c rfl
        (by show bl < 63; omega) hc
      simp only at hstep
      have hrec := ih ⟨MState.mcsi, bl + 1, bf ++ [c], bs.push (Char.ofNat c)⟩ rfl
        (by show bl + 1 + rest.length ≤ 63; omega)
        (fun x hx => hall x (by simp [hx]))
      simp only [runParse, hstep, hrec]
      simp only [Prod.mk.injEq, EscState.mk.injEq, push_append_mk]
      simp [List.replicate_succ, List.append_assoc]
      omega

theorem runParse_append (a b : List Nat) (s : EscState) :
    runParse s (a ++ b) =
      ((runParse s a).1 ++ (runParse (runParse s a).2 b).1,
       (runParse (runParse s a).2 b).2) := by
  induction a generalizing s with
  | nil => simp [runParse]
  | cons c rest ih =>
      simp only [List.cons_append, runParse, List.append_eq, ih, List.nil_append]

/-- The CSI decoding table exactly as the specification words it: with
parameter/intermediate bytes `ps` and final byte `f`, a bare `A/B/C/D/F/H`
maps to Up/Down/Right/Left/End/Home, `1~`/`3~`/`4~` map to
Home/Delete/End, and every other completed sequence maps to the generic
OTHER token. -/

theorem csi_token_eq_spec (ps : List Nat) (f : Nat) :
    csi_token (ps.length + 1) (ps ++ [f]) = csiSpecToken ps f := by
  match ps with
  | [] =>
      simp [csi_token, csiSpecToken]
  | [p] =>
      by_cases h7 : f = 0x7E
      · simp [csi_token, csiSpecToken, h7]
      · simp [csi_token, csiSpecToken, h7]
  | p :: q :: t =>
      have h2 : ¬ ((p :: q :: t).length + 1 = 2) := by simp
      have h1 : ¬ ((p :: q :: t).length + 1 = 1) := by simp
      simp [csi_token, csiSpecToken]

theorem str_append_mk_push (a : String) (l : List Char) (c : Char) :
    (a ++ String.mk l).push c = String.mk (a.data ++ (l ++ [c])) := by
  cases a with
  | mk la =>
      show String.mk ((la ++ l) ++ [c]) = String.mk (la ++ (l ++ [c]))
      rw [List.append_assoc]

/-- Claim C1: feeding a complete CSI sequence ESC `[` ps f byte-wise from the
NONE state emits no actionable token until the final byte (only NUL tokens),
and the final byte decodes exactly per the table `csiSpecToken`: bare
`A/B/C/D/F/H` to Up/Down/Right/Left/End/Home, `1~`/`3~`/`4~` to
Home/Delete/End, and every other completed sequence to the generic OTHER
token, with the classifier's raw-text buffer (which the editor echoes
verbatim on OTHER) holding exactly the matched bytes. -/
theorem csi_decode_table (ps : List Nat) (f : Nat)
    (hps : ∀ c ∈ ps, (is_middle_byte c || is_param_byte c) = true)
    (hlen : ps.length ≤ 62) (hf : is_csi_final f = true) :
    (runParse initEscState (0x1B :: 0x5B :: (ps ++ [f]))).1 =
      ESCAPE_CHAR_NUL :: ESCAPE_CHAR_NUL ::
        (List.replicate ps.length ESCAPE_CHAR_NUL ++ [csiSpecToken ps f]) ∧
    (runParse initEscState (0x1B :: 0x5B :: (ps ++ [f]))).2.bufStr =
      String.mk ((0x1B :: 0x5B :: (ps ++ [f])).map Char.ofNat) := by
  have h1 : ehshell_escape_char_parse initEscState 0x1B =
      (ESCAPE_CHAR_NUL, ⟨MState.mesc, 0, [], "\x1B"⟩) := by decide
  have h2 : ehshell_escape_char_parse ⟨MState.mesc, 0, [], "\x1B"⟩ 0x5B =
      (ESCAPE_CHAR_NUL, ⟨MState.mcsi, 0, [], "\x1B["⟩) := by decide
  have hacc := runParse_csi_accum ps ⟨MState.mcsi, 0, [], "\x1B["⟩ rfl
    (by show 0 + ps.length ≤ 63; omega) hps
  simp only [List.nil_append, Nat.zero_add] at hacc
  have hfin := parse_csi_final
    ⟨MState.mcsi, ps.length, ps, "\x1B[" ++ String.mk (ps.map Char.ofNat)⟩ f rfl
    (by show ps.length < 63; omega) hf
  simp only at hfin
  simp only [runParse, h1, h2, runParse_append, hacc, hfin]
  constructor
  · simp [csi_token_eq_spec]
  · rw [str_append_mk_push]
    have hdata : ("\x1B[" : String).data = [Char.ofNat 0x1B, Char.ofNat 0x5B] := by
      decide
    rw [hdata]
    simp

/-- Witness for C1: ESC [ 3 ~ decodes to Delete with the raw text carried. -/
theorem csi_decode_table_witness :
    (runParse initEscState (0x1B :: 0x5B :: ([0x33] ++ [0x7E]))).1 =
      ESCAPE_CHAR_NUL :: ESCAPE_CHAR_NUL ::
        (List.replicate [0x33].length ESCAPE_CHAR_NUL ++ [csiSpecToken [0x33] 0x7E]) ∧
    (runParse initEscState (0x1B :: 0x5B :: ([0x33] ++ [0x7E]))).2.bufStr =
      String.mk ((0x1B :: 0x5B :: ([0x33] ++ [0x7E])).map Char.ofNat) :=
  csi_decode_table [0x33] 0x7E (by decide) (by decide) (by decide)
